import Mathlib

/-!
Shallow embedding of the directory scanner `app-audit.py`.

The scanner walks one or more root directories, and for every surviving
regular file builds one record combining identity fields, content-derived
line counts for eligible plaintext files, and three git-status flags looked
up in a per-root snapshot.  Python strings are modelled as `List Char`
where character-level reasoning is needed (file content, lines) and as
`String` for path components and names.  Filesystem `stat` fields,
timestamp rendering, DataFrame row sorting and the CSV/Parquet export are
not referenced by any verified property and are not embedded.

A "raw line" below is exactly what Python file iteration yields: the text
of the line including its trailing newline character, except possibly for
the final line of the file.
-/

namespace AppAudit

/-- Python regex class `\s` restricted to ASCII: space, tab, newline,
carriage return, vertical tab, form feed. -/
def isWsChar (c : Char) : Bool :=
  c == ' ' || c == '\t' || c == '\n' || c == '\r' || c == '\x0b' || c == '\x0c'

/-- Python regex class `\w` restricted to ASCII: letters, digits and
underscore. -/
def isWordChar (c : Char) : Bool :=
  c.isAlpha || c.isDigit || c == '_'

/-- Remove a final newline character when present.  This models the
behaviour of an unanchored `$` in a Python regex without `re.MULTILINE`,
which matches at the end of the string or just before a final newline. -/
def stripFinalNewline (l : List Char) : List Char :=
  if l.getLast? = some '\n' then l.dropLast else l

/-- Embeds `re.search(r'^\s*#.*', line)` (source line 102): the raw line
starts with optional whitespace followed by the comment marker.  Since the
character after the `\s*` run must be `#`, greedy whitespace matching is
equivalent to the regex with backtracking. -/
def matchLeadingHash (l : List Char) : Bool :=
  (l.dropWhile isWsChar).head? == some '#'

/-- Case-insensitive search for a literal pattern anywhere in the line:
embeds `re.search(pat, line, re.IGNORECASE)` for a literal `pat` given in
lowercase.  The line is lowercased and every suffix is tested for the
pattern as a prefix. -/
def containsCI (pat : String) (l : List Char) : Bool :=
  (l.map Char.toLower).tails.any fun t => pat.data.isPrefixOf t

/-- Embeds the copyright/boilerplate tests of source lines 104-107. -/
def isBoilerplate (l : List Char) : Bool :=
  containsCI "copyright" l || containsCI "all rights reserved" l ||
  containsCI "use, modification" l || containsCI "software is limit" l

/-- Embeds `re.search(r'^\s*#+$', line)` (source line 110): optional
whitespace, then one or more `#`, then end of line (a final newline is
tolerated by `$`). -/
def matchHashOnly (l : List Char) : Bool :=
  let rest := (stripFinalNewline l).dropWhile isWsChar
  !rest.isEmpty && rest.all (· == '#')

/-- Embeds `re.search(r'^\w*$', line)` (source line 119): the raw line,
with a final newline tolerated by `$`, consists entirely of word
characters (possibly none).  Note the source really uses `\w`, not `\s`,
in this pattern. -/
def matchWordOnly (l : List Char) : Bool :=
  (stripFinalNewline l).all isWordChar

/-- Embeds `re.search(r'^[^#]+#+\s*\W.*$', line)` (source line 122).
Derivation from the regex, for a raw line whose only newline can be the
final character: `[^#]+` is a nonempty run of non-`#` characters starting
at position 0, so it must end exactly at the first `#` of the line; `#+`
consumes a nonempty prefix of the `#`-run found there.  If the `#`-run has
length at least two, `#+` may stop after one `#` and the next `#`, being a
non-word character, satisfies `\W` with `\s*` empty; `.*$` then always
succeeds.  Otherwise `#+` must consume the entire run and `\s*\W` requires
the character right after the run to exist and be a non-word character
(whitespace itself is non-word, so a longer `\s*` match never helps). -/
def matchTrailingComment (l : List Char) : Bool :=
  let pre := l.takeWhile (· != '#')
  let rest := l.dropWhile (· != '#')
  let hashes := rest.takeWhile (· == '#')
  let after := rest.dropWhile (· == '#')
  !pre.isEmpty && !rest.isEmpty &&
    (decide (2 ≤ hashes.length) ||
      (match after.head? with
       | some c => !isWordChar c
       | none => false))

/-- Embeds `re.search(r'.*function\s+\w+\(.*\)', line, re.IGNORECASE)`
(source line 127): some suffix of the line starts with the literal
`function` (case-insensitively), followed by at least one whitespace
character, at least one word character, an opening parenthesis and a later
closing parenthesis.  Whitespace, word characters and the delimiters are
pairwise disjoint at each boundary, so greedy matching is equivalent. -/
def matchFunctionDef (l : List Char) : Bool :=
  l.tails.any fun t =>
    (t.take 8).map Char.toLower == "function".toList &&
    (let r1 := t.drop 8
     (match r1.head? with | some c => isWsChar c | none => false) &&
     (let r2 := r1.dropWhile isWsChar
      (match r2.head? with | some c => isWordChar c | none => false) &&
      (let r3 := r2.dropWhile isWordChar
       r3.head? == some '(' && (r3.drop 1).contains ')')))

/-- Embeds `re.search(r'.*prepare\s+\w+\s+from', line, re.IGNORECASE)`
(source line 129). -/
def matchPrepareStmt (l : List Char) : Bool :=
  l.tails.any fun t =>
    (t.take 7).map Char.toLower == "prepare".toList &&
    (let r1 := t.drop 7
     (match r1.head? with | some c => isWsChar c | none => false) &&
     (let r2 := r1.dropWhile isWsChar
      (match r2.head? with | some c => isWordChar c | none => false) &&
      (let r3 := r2.dropWhile isWordChar
       (match r3.head? with | some c => isWsChar c | none => false) &&
       (let r4 := r3.dropWhile isWsChar
        (r4.take 4).map Char.toLower == "from".toList))))

/-- Embeds `re.search(r'.*execute\s+\w+\s+using', line, re.IGNORECASE)`
(source line 131). -/
def matchExecuteStmt (l : List Char) : Bool :=
  l.tails.any fun t =>
    (t.take 7).map Char.toLower == "execute".toList &&
    (let r1 := t.drop 7
     (match r1.head? with | some c => isWsChar c | none => false) &&
     (let r2 := r1.dropWhile isWsChar
      (match r2.head? with | some c => isWordChar c | none => false) &&
      (let r3 := r2.dropWhile isWordChar
       (match r3.head? with | some c => isWsChar c | none => false) &&
       (let r4 := r3.dropWhile isWsChar
        (r4.take 5).map Char.toLower == "using".toList))))

/-- Embeds `re.search(r'.*run\s+', line, re.IGNORECASE)` (source line
133): the literal `run` anywhere in the line, immediately followed by a
whitespace character. -/
def matchRunStmt (l : List Char) : Bool :=
  l.tails.any fun t =>
    (t.take 3).map Char.toLower == "run".toList &&
    (match (t.drop 3).head? with | some c => isWsChar c | none => false)

/-- Embeds `re.search(r'.*mz\s+', line, re.IGNORECASE)` (source line
135). -/
def matchMzStmt (l : List Char) : Bool :=
  l.tails.any fun t =>
    (t.take 2).map Char.toLower == "mz".toList &&
    (match (t.drop 2).head? with | some c => isWsChar c | none => false)

/-- Blank-counter increment contributed by the leading-comment branch
(source lines 102-117): a line matching `^\s*#.*` is counted blank when it
carries copyright boilerplate, or matches `^\s*#+$`; otherwise that branch
counts it as a comment.  A line not matching `^\s*#.*` contributes nothing
here. -/
def leadingBlankInc (l : List Char) : Nat :=
  if matchLeadingHash l then
    if isBoilerplate l then 1 else if matchHashOnly l then 1 else 0
  else 0

/-- Comment-counter increment contributed by the leading-comment branch
(the `else` arm at source line 117). -/
def leadingCommentInc (l : List Char) : Nat :=
  if matchLeadingHash l then
    if isBoilerplate l then 0 else if matchHashOnly l then 0 else 1
  else 0

/-- Total blank-counter increment for one raw line: the leading-comment
branch plus the independent `^\w*$` test of source line 119. -/
def blankInc (l : List Char) : Nat :=
  leadingBlankInc l + (if matchWordOnly l then 1 else 0)

/-- Total comment-counter increment for one raw line: the leading-comment
branch plus the independent trailing-comment test of source line 122. -/
def commentInc (l : List Char) : Nat :=
  leadingCommentInc l + (if matchTrailingComment l then 1 else 0)

/-- The eight per-file counters accumulated by the content pass, named
after the corresponding local variables of `gather_stats`. -/
structure LineCounts where
  n_lines : Nat
  n_comment_lines : Nat
  n_blank_lines : Nat
  n_function_defines : Nat
  n_prepare_defines : Nat
  n_execute_statements : Nat
  n_run_statements : Nat
  n_mz_statements : Nat

/-- All counters start at zero (source lines 89-96). -/
def zeroCounts : LineCounts := ⟨0, 0, 0, 0, 0, 0, 0, 0⟩

/-- One iteration of the `for line in f` loop (source lines 100-136). -/
def processLine (c : LineCounts) (l : List Char) : LineCounts :=
  { n_lines := c.n_lines + 1
    n_comment_lines := c.n_comment_lines + commentInc l
    n_blank_lines := c.n_blank_lines + blankInc l
    n_function_defines := c.n_function_defines + (if matchFunctionDef l then 1 else 0)
    n_prepare_defines := c.n_prepare_defines + (if matchPrepareStmt l then 1 else 0)
    n_execute_statements := c.n_execute_statements + (if matchExecuteStmt l then 1 else 0)
    n_run_statements := c.n_run_statements + (if matchRunStmt l then 1 else 0)
    n_mz_statements := c.n_mz_statements + (if matchMzStmt l then 1 else 0) }

/-- Run the content pass over the raw lines of a file. -/
def count_lines (lines : List (List Char)) : LineCounts :=
  lines.foldl processLine zeroCounts

/-- Split file content into raw lines the way Python file iteration does:
each line keeps its trailing newline, and a final fragment without a
newline is still a line; empty content yields no lines. -/
def pyLines : List Char → List (List Char)
  | [] => []
  | c :: cs =>
    if c = '\n' then ['\n'] :: pyLines cs
    else
      match pyLines cs with
      | [] => [[c]]
      | ln :: rest => (c :: ln) :: rest

/-- The recognized plaintext suffixes (source lines 83-86), verbatim,
including the entry `.RDS` whose uppercase letters can never compare equal
to a lowercased suffix. -/
def plaintext_suffixes : List String :=
  [".4gl", ".ext", ".org", ".sql", ".set", ".RDS",
   ".txt", ".md", ".csv", ".json", ".yaml", ".yml", ".ini", ".cfg",
   ".py", ".pl", ".sh", ".bash", ".ksh", ".c", ".h", ".cpp", ".hpp",
   ".js", ".ts", ".html", ".css", ".xml", ".bat", ".cmd", ".php"]

/-- Python `str.lower` for the ASCII strings involved here. -/
def py_lower (s : String) : String := String.mk (s.data.map Char.toLower)

/-- `pathlib.PurePath.name`: the final path component. -/
def pyName (comps : List String) : String := (comps.getLast?).getD ""

/-- `pathlib.PurePath.suffix`: `name[i:]` where `i` is the index of the
last dot, provided `0 < i < len(name) - 1`, and the empty string
otherwise. -/
def pySuffix (name : String) : String :=
  let cs := name.data
  let after := (cs.reverse.takeWhile (· != '.')).reverse
  if cs.contains '.' && !after.isEmpty && after.length + 1 < cs.length then
    String.mk ('.' :: after)
  else ""

/-- The eligibility gate of source line 97:
`p.suffix.lower() in plaintext_suffixes or p.name == "Makefile"`. -/
def eligibleFile (name suffix : String) : Bool :=
  decide (py_lower suffix ∈ plaintext_suffixes) || decide (name = "Makefile")

/-- Per-root snapshot of repository state (source lines 36-55).  The git
library reports working-tree and index diffs by paths relative to the
working tree (`diff.a_path` / `diff.b_path` for `index.diff(None)` and
`index.diff("HEAD")`), and commit-tree entries whose `abspath` is the join
of the working tree directory and the entry path relative to the
repository. -/
structure GitSnapshot where
  working_tree_dir : String
  diff_none_a : List String
  diff_none_b : List String
  diff_head_a : List String
  diff_head_b : List String
  tracked_rel_paths : List String

/-- The path join `working_tree_dir + "/" + rel` used verbatim at source
lines 38, 39, 45 and 46, and implicitly by `entry.abspath` at line 52. -/
def joinPath (d p : String) : String := d ++ "/" ++ p

/-- `all_local_mod_files` (source lines 38-40).  Python wraps the
concatenated list in a `set`, which only removes duplicates; membership is
unchanged, so the concatenation itself is kept. -/
def all_local_mod_files (g : GitSnapshot) : List String :=
  g.diff_none_a.map (joinPath g.working_tree_dir) ++
  g.diff_none_b.map (joinPath g.working_tree_dir)

/-- `all_staged_files` (source lines 45-47). -/
def all_staged_files (g : GitSnapshot) : List String :=
  g.diff_head_a.map (joinPath g.working_tree_dir) ++
  g.diff_head_b.map (joinPath g.working_tree_dir)

/-- `all_tracked_files` (source line 52). -/
def all_tracked_files (g : GitSnapshot) : List String :=
  g.tracked_rel_paths.map (joinPath g.working_tree_dir)

/-- `b_tracked` (source lines 70-72): false when no repository was found,
otherwise a bare-name membership test in the tracked-path list. -/
def b_tracked (g? : Option GitSnapshot) (name : String) : Bool :=
  match g? with
  | none => false
  | some g => decide (name ∈ all_tracked_files g)

/-- `b_local_mod` (source lines 74-76). -/
def b_local_mod (g? : Option GitSnapshot) (name : String) : Bool :=
  match g? with
  | none => false
  | some g => decide (name ∈ all_local_mod_files g)

/-- `b_staged` (source lines 78-80). -/
def b_staged (g? : Option GitSnapshot) (name : String) : Bool :=
  match g? with
  | none => false
  | some g => decide (name ∈ all_staged_files g)

/-- `PurePath.relative_to`: the remainder of `p` after `root` when `root`
is a prefix of `p`; Python raises `ValueError` otherwise, modelled as
`none`.  Paths are modelled by their component lists; the scan root is
already resolved (source line 26). -/
def relative_to (p root : List String) : Option (List String) :=
  if root.isPrefixOf p then some (p.drop root.length) else none

/-- One surviving regular file below the scan root, as delivered by the
walker `root.rglob('*')` after the `is_file`/`stat` filter of source lines
58-67: its path components relative to the resolved root, and its raw
content. -/
structure FSFile where
  relComponents : List String
  content : List Char

/-- The fields of one produced record (source lines 140-164) that are
referenced by the verified properties.  The filesystem `stat` fields and
the `parent` column are omitted. -/
structure FileRecord where
  abs_path : List String
  rel_path : List String
  name : String
  suffix : String
  num_lines : Nat
  num_comment_lines : Nat
  num_blank_lines : Nat
  num_function_defines : Nat
  num_prepare_defines : Nat
  num_execute_statements : Nat
  num_run_statements : Nat
  num_mz_statements : Nat
  b_tracked_in_scm_repo : Bool
  b_locally_modified : Bool
  b_staged_for_commit : Bool

/-- Assembly of one record for one surviving file (source lines 69-164):
git-flag lookups on the bare name, the eligibility gate guarding the
content pass, and the identity fields. -/
def mkRecord (root : List String) (g? : Option GitSnapshot) (f : FSFile) : FileRecord :=
  let p := root ++ f.relComponents
  let nm := pyName p
  let sfx := pySuffix nm
  let counts :=
    if eligibleFile nm sfx then count_lines (pyLines f.content) else zeroCounts
  { abs_path := p
    rel_path := (relative_to p root).getD []
    name := nm
    suffix := sfx
    num_lines := counts.n_lines
    num_comment_lines := counts.n_comment_lines
    num_blank_lines := counts.n_blank_lines
    num_function_defines := counts.n_function_defines
    num_prepare_defines := counts.n_prepare_defines
    num_execute_statements := counts.n_execute_statements
    num_run_statements := counts.n_run_statements
    num_mz_statements := counts.n_mz_statements
    b_tracked_in_scm_repo := b_tracked g? nm
    b_locally_modified := b_local_mod g? nm
    b_staged_for_commit := b_staged g? nm }

/-- `gather_stats` for one root (source lines 25-168): one record per
surviving file.  Sorting only permutes rows and is not embedded. -/
def gather_stats (root : List String) (files : List FSFile) (g? : Option GitSnapshot) :
    List FileRecord :=
  files.map (mkRecord root g?)

/-- One command-line root as seen by `main`: its resolved components,
whether it exists and is a directory, the surviving files below it, and
the repository snapshot found for it (if any). -/
structure RootInput where
  comps : List String
  isDir : Bool
  files : List FSFile
  git : Option GitSnapshot

/-- The root loop and exit logic of `main` (source lines 187-210): roots
that are missing or not directories are skipped with a diagnostic; every
valid root contributes its per-root table to `all_dfs` (even when empty);
if `all_dfs` stayed empty the program exits with status 2, otherwise it
ends normally with status 0. -/
def main_scan (roots : List RootInput) : List (List FileRecord) × Nat :=
  let all_dfs :=
    (roots.filter fun r => r.isDir).map fun r => gather_stats r.comps r.files r.git
  (all_dfs, if all_dfs.isEmpty then 2 else 0)

/-- All eight content attributes of a record are zero. -/
def contentAllZero (r : FileRecord) : Prop :=
  r.num_lines = 0 ∧ r.num_comment_lines = 0 ∧ r.num_blank_lines = 0 ∧
  r.num_function_defines = 0 ∧ r.num_prepare_defines = 0 ∧
  r.num_execute_statements = 0 ∧ r.num_run_statements = 0 ∧ r.num_mz_statements = 0

/-- Auxiliary: the fold over the raw lines adds exactly one to the line
counter per line. -/
theorem foldl_n_lines (ls : List (List Char)) (c : LineCounts) :
    (ls.foldl processLine c).n_lines = c.n_lines + ls.length := by
  induction ls generalizing c with
  | nil => simp
  | cons a t ih =>
    rw [List.foldl_cons, ih]
    simp [processLine]
    omega

/-- Auxiliary: a successful boolean prefix test preserves membership. -/
theorem mem_of_isPrefixOf {l₁ l₂ : List Char} (h : l₁.isPrefixOf l₂ = true) :
    ∀ {a : Char}, a ∈ l₁ → a ∈ l₂ := by
  intro a ha
  have hp : l₁ <+: l₂ := by simpa using h
  exact hp.subset ha

/-- Auxiliary: a non-newline character of a raw line survives the final
newline stripping. -/
theorem mem_stripFinalNewline {c : Char} {l : List Char} (hc : c ∈ l) (hne : c ≠ '\n') :
    c ∈ stripFinalNewline l := by
  unfold stripFinalNewline
  split
  · next h =>
    have hl : l ≠ [] := by rintro rfl; simp at h
    have hlast : l.getLast hl = '\n' := by
      have he := List.getLast?_eq_getLast_of_ne_nil hl
      rw [he] at h
      exact Option.some.inj h
    have hdecomp := List.dropLast_append_getLast hl
    rw [← hdecomp] at hc
    rcases List.mem_append.mp hc with h1 | h1
    · exact h1
    · rw [List.mem_singleton] at h1
      rw [hlast] at h1
      exact absurd h1 hne
  · exact hc

/-- Auxiliary: a line matching `^\s*#.*` contains the comment marker. -/
theorem hash_mem_of_matchLeadingHash {l : List Char} (h : matchLeadingHash l = true) :
    '#' ∈ l := by
  unfold matchLeadingHash at h
  cases e : l.dropWhile isWsChar with
  | nil => rw [e] at h; simp at h
  | cons a t =>
    rw [e] at h
    simp at h
    subst h
    exact (List.dropWhile_sublist isWsChar).subset (by rw [e]; exact List.mem_cons_self _ _)

/-- Auxiliary: a line matching `^\s*#.*` cannot also match `^\w*$`: the
comment marker is not a word character, so the two blank rules of source
lines 110 and 119 never fire on the same line. -/
theorem matchWordOnly_eq_false_of_leadingHash {l : List Char}
    (h : matchLeadingHash l = true) : matchWordOnly l = false := by
  have hm : '#' ∈ stripFinalNewline l :=
    mem_stripFinalNewline (hash_mem_of_matchLeadingHash h) (by decide)
  cases hw : matchWordOnly l with
  | false => rfl
  | true =>
    exfalso
    unfold matchWordOnly at hw
    have hx := List.all_eq_true.mp hw '#' hm
    simp [isWordChar] at hx

/-- Auxiliary: dropping a predicate-satisfying prefix skips it wholesale. -/
theorem dropWhile_append_all {p : Char → Bool} {w t : List Char}
    (hw : ∀ c ∈ w, p c = true) :
    (w ++ t).dropWhile p = t.dropWhile p := by
  induction w with
  | nil => rfl
  | cons a w ih =>
    have ha := hw a (List.mem_cons_self _ _)
    rw [List.cons_append, List.dropWhile_cons, if_pos ha]
    exact ih fun c hc => hw c (List.mem_cons_of_mem _ hc)

/-- Auxiliary: whitespace characters and the comment marker are unchanged
by lowercasing. -/
theorem markerChar_toLower {c : Char} (h : isWsChar c = true ∨ c = '#') :
    Char.toLower c = c := by
  rcases h with h | rfl
  · have hc : c = ' ' ∨ c = '\t' ∨ c = '\n' ∨ c = '\r' ∨ c = '\x0b' ∨ c = '\x0c' := by
      simpa [isWsChar, or_assoc] using h
    rcases hc with rfl | rfl | rfl | rfl | rfl | rfl <;> decide
  · decide

/-- Auxiliary: a case-insensitive literal search fails on a line built only
from whitespace and comment markers, as soon as the literal contains a
character that is neither. -/
theorem containsCI_eq_false {pat : String} {q : Char} (hq : q ∈ pat.data)
    (hqw : isWsChar q = false) (hqh : q ≠ '#')
    {l : List Char} (hl : ∀ c ∈ l, isWsChar c = true ∨ c = '#') :
    containsCI pat l = false := by
  cases hc : containsCI pat l with
  | false => rfl
  | true =>
    exfalso
    unfold containsCI at hc
    obtain ⟨t, ht, hp⟩ := List.any_eq_true.mp hc
    have hsuf : t <:+ l.map Char.toLower := (List.mem_tails _ _).mp ht
    have hqt : q ∈ t := mem_of_isPrefixOf hp hq
    obtain ⟨a, ha, hta⟩ := List.mem_map.mp (hsuf.subset hqt)
    rw [markerChar_toLower (hl a ha)] at hta
    subst hta
    rcases hl a ha with h | rfl
    · rw [h] at hqw; cases hqw
    · exact hqh rfl

/-- Auxiliary: no copyright boilerplate on a line of whitespace and comment
markers. -/
theorem isBoilerplate_marker_false {l : List Char}
    (hl : ∀ c ∈ l, isWsChar c = true ∨ c = '#') :
    isBoilerplate l = false := by
  unfold isBoilerplate
  rw [containsCI_eq_false (show 'c' ∈ "copyright".data by decide) (by decide) (by decide) hl,
    containsCI_eq_false (show 'a' ∈ "all rights reserved".data by decide) (by decide) (by decide) hl,
    containsCI_eq_false (show 'u' ∈ "use, modification".data by decide) (by decide) (by decide) hl,
    containsCI_eq_false (show 's' ∈ "software is limit".data by decide) (by decide) (by decide) hl]
  rfl

/-- Auxiliary: the boolean prefix test accepts a list extended on the
right. -/
theorem isPrefixOf_append_self (l t : List String) : l.isPrefixOf (l ++ t) = true := by
  simp only [List.isPrefixOf_iff_prefix]
  exact ⟨t, rfl⟩

/-- Auxiliary: every element produced by the join of source lines 38-52
contains the path separator. -/
theorem slash_mem_joinPath (d p : String) : '/' ∈ (joinPath d p).data := by
  unfold joinPath
  rw [String.data_append, String.data_append]
  refine List.mem_append.mpr (Or.inl (List.mem_append.mpr (Or.inr ?_)))
  decide

/-- Auxiliary: a name without a path separator is never a member of one of
the snapshot collections, so all three per-file lookups return false. -/
theorem flags_false_of_no_slash (g? : Option GitSnapshot) (name : String)
    (h : '/' ∉ name.data) :
    b_tracked g? name = false ∧ b_local_mod g? name = false ∧ b_staged g? name = false := by
  have key : ∀ (d : String) (xs : List String), name ∉ xs.map (joinPath d) := by
    intro d xs hmem
    obtain ⟨x, _, hx⟩ := List.mem_map.mp hmem
    apply h
    rw [← hx]
    exact slash_mem_joinPath d x
  cases g? with
  | none => exact ⟨rfl, rfl, rfl⟩
  | some g =>
    refine ⟨decide_eq_false (key _ _), decide_eq_false ?_, decide_eq_false ?_⟩
    · intro hmem
      rcases List.mem_append.mp hmem with h1 | h1
      · exact key _ _ h1
      · exact key _ _ h1
    · intro hmem
      rcases List.mem_append.mp hmem with h1 | h1
      · exact key _ _ h1
      · exact key _ _ h1

/-- The record of the C1 scenario: a scan root holding exactly one
eligible file `a.txt` whose three lines are "Copyright 2024 X", "" and
"run job1". -/
def c1Record : FileRecord :=
  mkRecord ["root"] none ⟨["a.txt"], "Copyright 2024 X\n\nrun job1\n".toList⟩

/-- Claim C1 is false as stated: in the scenario of one eligible file
`a.txt` with lines "Copyright 2024 X", "" and "run job1", the produced
record has num_lines = 3, num_comment_lines = 0 and num_run_statements = 1
as claimed, but num_blank_lines is not 2: the first line does not start
with the comment marker, so the copyright rule never fires on it and only
the empty second line is counted blank. -/
theorem c1_counterexample :
    c1Record.num_lines = 3 ∧ c1Record.num_comment_lines = 0 ∧
    c1Record.num_run_statements = 1 ∧ c1Record.num_blank_lines ≠ 2 := by
  refine ⟨by decide, by decide, by decide, by decide⟩

/-- Claim C1 amended: the scenario record has num_lines = 3,
num_blank_lines = 1, num_comment_lines = 0 and num_run_statements = 1. -/
theorem c1_amended :
    c1Record.num_lines = 3 ∧ c1Record.num_blank_lines = 1 ∧
    c1Record.num_comment_lines = 0 ∧ c1Record.num_run_statements = 1 := by
  refine ⟨by decide, by decide, by decide, by decide⟩

/-- The record of the C2 failing input: one eligible file `a.txt` whose
two lines consist of a single space and a single tab. -/
def c2Record : FileRecord :=
  mkRecord ["root"] none ⟨["a.txt"], " \n\t\n".toList⟩

/-- Claim C2 evaluated on the code at the failing input: for an eligible
file whose two lines are whitespace-only (one space, one tab), the code
produces num_blank_lines = 0 and not num_blank_lines = num_lines = 2; the
blank rule of source line 119 uses the regex `^\w*$`, which matches only
word-character lines (and the empty line), never a nonempty
whitespace-only line, contradicting the code's own comment at line 118. -/
theorem c2_code_eval :
    c2Record.num_lines = 2 ∧ c2Record.num_blank_lines = 0 ∧
    c2Record.num_comment_lines = 0 := by
  refine ⟨by decide, by decide, by decide⟩

/-- Claim C3: each repository flag tests the file's bare name against a
collection whose every element is a joined full path containing the
separator, so for every record whose name holds no separator character all
three flags are false, whether or not a repository snapshot exists. -/
theorem c3_bare_name_never_matches (root : List String) (files : List FSFile)
    (g? : Option GitSnapshot)
    (h : ∀ f ∈ files, '/' ∉ (pyName (root ++ f.relComponents)).data) :
    ∀ r ∈ gather_stats root files g?,
      r.b_tracked_in_scm_repo = false ∧ r.b_locally_modified = false ∧
      r.b_staged_for_commit = false := by
  intro r hr
  obtain ⟨f, hf, rfl⟩ := List.mem_map.mp hr
  exact flags_false_of_no_slash g? _ (h f hf)

/-- A concrete snapshot in which the file `a.txt` is tracked, locally
modified and staged by its repository-relative path. -/
def c3Snapshot : GitSnapshot :=
  ⟨"/repo", ["mod.4gm/a.txt"], ["mod.4gm/a.txt"], ["mod.4gm/a.txt"],
   ["mod.4gm/a.txt"], ["mod.4gm/a.txt"]⟩

/-- Witness for C3: even for a file that the snapshot lists as tracked,
modified and staged, the bare-name lookups all come back false. -/
theorem c3_witness :
    (mkRecord ["mod.4gm"] (some c3Snapshot) ⟨["a.txt"], []⟩).b_tracked_in_scm_repo = false ∧
    (mkRecord ["mod.4gm"] (some c3Snapshot) ⟨["a.txt"], []⟩).b_locally_modified = false ∧
    (mkRecord ["mod.4gm"] (some c3Snapshot) ⟨["a.txt"], []⟩).b_staged_for_commit = false := by
  have h := c3_bare_name_never_matches ["mod.4gm"] [⟨["a.txt"], []⟩] (some c3Snapshot)
    (by intro f hf; rw [List.mem_singleton] at hf; subst hf; decide)
  exact h _ (List.mem_singleton.mpr rfl)

/-- The record of the C5 scenario: one eligible file `a.txt` whose single
line is "  # hello". -/
def c5Record : FileRecord :=
  mkRecord ["root"] none ⟨["a.txt"], "  # hello".toList⟩

/-- Claim C5: there is an eligible file whose comment count exceeds its
line count: the single line "  # hello" increments the comment counter
once through the leading-comment branch and once more through the
trailing-comment rule, giving num_comment_lines = 2 with num_lines = 1. -/
theorem c5_comment_exceeds_lines :
    eligibleFile c5Record.name c5Record.suffix = true ∧
    c5Record.num_lines = 1 ∧ c5Record.num_comment_lines = 2 ∧
    c5Record.num_lines < c5Record.num_comment_lines ∧
    leadingCommentInc ("  # hello".toList) = 1 ∧
    matchTrailingComment ("  # hello".toList) = true := by
  refine ⟨by decide, by decide, by decide, by decide, by decide, by decide⟩

/-- The record of the C6 counterexample: an eligible file `a.txt` with
empty content. -/
def c6Record : FileRecord :=
  mkRecord ["root"] none ⟨["a.txt"], []⟩

/-- Claim C6 is false as stated: an eligible file with empty content
produces a record whose content attributes are all zero, so all-zero
content attributes do not imply that the file failed the eligibility
gate. -/
theorem c6_counterexample :
    eligibleFile c6Record.name c6Record.suffix = true ∧ contentAllZero c6Record := by
  constructor
  · decide
  · refine ⟨by decide, by decide, by decide, by decide, by decide, by decide, by decide, by decide⟩

/-- Claim C6 amended: a file that fails the eligibility gate always gets
all-zero content attributes, and an eligible file gets all-zero content
attributes exactly when its content splits into no lines at all (empty
content). -/
theorem c6_amended (root : List String) (g? : Option GitSnapshot) (f : FSFile) :
    (eligibleFile (pyName (root ++ f.relComponents))
        (pySuffix (pyName (root ++ f.relComponents))) = false →
      contentAllZero (mkRecord root g? f)) ∧
    (eligibleFile (pyName (root ++ f.relComponents))
        (pySuffix (pyName (root ++ f.relComponents))) = true →
      (contentAllZero (mkRecord root g? f) ↔ pyLines f.content = [])) := by
  constructor
  · intro hE
    unfold contentAllZero mkRecord
    simp only [hE]
    simp [zeroCounts]
  · intro hE
    constructor
    · intro hz
      have hn : (mkRecord root g? f).num_lines = 0 := hz.1
      have hn2 : (count_lines (pyLines f.content)).n_lines = 0 := by
        have hgoal := hn
        unfold mkRecord at hgoal
        simp only [hE] at hgoal
        simpa using hgoal
      rw [count_lines, foldl_n_lines] at hn2
      simp [zeroCounts] at hn2
      exact hn2
    · intro he
      unfold contentAllZero mkRecord
      simp only [hE, he]
      simp [count_lines, zeroCounts]

/-- Witness for C6 amended: an ineligible file with nonempty content gets
all-zero content attributes, and an eligible empty file does as well. -/
theorem c6_witness :
    contentAllZero (mkRecord ["root"] none ⟨["b.bin"], "data".toList⟩) ∧
    contentAllZero (mkRecord ["root"] none ⟨["c.txt"], []⟩) :=
  ⟨(c6_amended ["root"] none ⟨["b.bin"], "data".toList⟩).1 (by decide),
   ((c6_amended ["root"] none ⟨["c.txt"], []⟩).2 (by decide)).mpr rfl⟩

/-- Claim C7: with no repository snapshot (none found, or resolution
disabled), every produced record has all three repository flags false. -/
theorem c7_no_repo_all_flags_false (root : List String) (files : List FSFile) :
    ∀ r ∈ gather_stats root files none,
      r.b_tracked_in_scm_repo = false ∧ r.b_locally_modified = false ∧
      r.b_staged_for_commit = false := by
  intro r hr
  obtain ⟨f, _, rfl⟩ := List.mem_map.mp hr
  exact ⟨rfl, rfl, rfl⟩

/-- Witness for C7 at a concrete root with one file. -/
theorem c7_witness :
    (mkRecord ["root"] none ⟨["a.txt"], []⟩).b_tracked_in_scm_repo = false ∧
    (mkRecord ["root"] none ⟨["a.txt"], []⟩).b_locally_modified = false ∧
    (mkRecord ["root"] none ⟨["a.txt"], []⟩).b_staged_for_commit = false :=
  c7_no_repo_all_flags_false ["root"] [⟨["a.txt"], []⟩] _ (List.mem_singleton.mpr rfl)

/-- The record of the C4 counterexample: one eligible file `a.txt` whose
single line is a space, the comment marker and a newline. -/
def c4Record : FileRecord :=
  mkRecord ["root"] none ⟨["a.txt"], " #\n".toList⟩

/-- Claim C4 is false as stated: the single line " #" (with its newline)
is counted blank by the marker-only rule of source line 110 and is also
counted as a comment by the independent trailing-comment rule of source
line 122, whose `\W` matches the newline; one line contributes to both
counters. -/
theorem c4_counterexample :
    c4Record.num_lines = 1 ∧ c4Record.num_blank_lines = 1 ∧
    c4Record.num_comment_lines = 1 ∧
    blankInc (" #\n".toList) = 1 ∧ commentInc (" #\n".toList) = 1 := by
  refine ⟨by decide, by decide, by decide, by decide, by decide⟩

/-- Claim C4 amended: a line increments the blank counter at most once,
and the only way a line contributes to both the blank and the comment
counter is through the independent trailing-comment rule of source line
122; the leading-comment branch alone classifies each of its lines as
exactly one of blank or comment. -/
theorem c4_amended (l : List Char) :
    blankInc l ≤ 1 ∧
    (1 ≤ blankInc l → 1 ≤ commentInc l → matchTrailingComment l = true) := by
  cases h1 : matchLeadingHash l with
  | false =>
    constructor
    · simp only [blankInc, leadingBlankInc, h1, Bool.false_eq_true, if_false, Nat.zero_add]
      split <;> simp
    · intro _ hc
      cases h4 : matchTrailingComment l with
      | true => rfl
      | false =>
        exfalso
        simp [commentInc, leadingCommentInc, h1, h4] at hc
  | true =>
    have hw := matchWordOnly_eq_false_of_leadingHash h1
    cases h2 : isBoilerplate l with
    | true =>
      constructor
      · simp [blankInc, leadingBlankInc, h1, h2, hw]
      · intro _ hc
        cases h4 : matchTrailingComment l with
        | true => rfl
        | false =>
          exfalso
          simp [commentInc, leadingCommentInc, h1, h2, h4] at hc
    | false =>
      cases h3 : matchHashOnly l with
      | true =>
        constructor
        · simp [blankInc, leadingBlankInc, h1, h2, h3, hw]
        · intro _ hc
          cases h4 : matchTrailingComment l with
          | true => rfl
          | false =>
            exfalso
            simp [commentInc, leadingCommentInc, h1, h2, h3, h4] at hc
      | false =>
        constructor
        · simp [blankInc, leadingBlankInc, h1, h2, h3, hw]
        · intro hb _
          exfalso
          simp [blankInc, leadingBlankInc, h1, h2, h3, hw] at hb

/-- Witness for C4 amended at the line " #" with newline: the blank bound
holds and the double contribution is indeed through the trailing-comment
rule. -/
theorem c4_witness :
    blankInc (" #\n".toList) ≤ 1 ∧ matchTrailingComment (" #\n".toList) = true :=
  ⟨(c4_amended (" #\n".toList)).1,
   (c4_amended (" #\n".toList)).2 (by decide) (by decide)⟩

/-- Claim C8: if no supplied root is a valid directory, the run exits with
the distinct failure status 2 having produced no per-root tables; if at
least one root is valid, the run keeps the valid roots' tables (invalid
ones are skipped) and ends with status 0. -/
theorem c8_exit_and_skip (roots : List RootInput) :
    ((∀ r ∈ roots, r.isDir = false) →
      (main_scan roots).2 = 2 ∧ (main_scan roots).1 = []) ∧
    ((∃ r ∈ roots, r.isDir = true) →
      (main_scan roots).2 = 0 ∧
      (main_scan roots).1 =
        (roots.filter fun r => r.isDir).map fun r =>
          gather_stats r.comps r.files r.git) := by
  constructor
  · intro h
    have hf : (roots.filter fun r => r.isDir) = [] :=
      List.filter_eq_nil_iff.mpr (by intro r hr; simp [h r hr])
    simp [main_scan, hf]
  · rintro ⟨r, hr, hd⟩
    have hf : (roots.filter fun r => r.isDir) ≠ [] := by
      intro h0
      have hx := List.filter_eq_nil_iff.mp h0 r hr
      simp [hd] at hx
    constructor
    · have hm : ((roots.filter fun r => r.isDir).map fun r =>
          gather_stats r.comps r.files r.git) ≠ [] := by
        intro h0
        exact hf (List.map_eq_nil_iff.mp h0)
      unfold main_scan
      cases he : ((roots.filter fun r => r.isDir).map fun r =>
          gather_stats r.comps r.files r.git).isEmpty with
      | false => simp [he]
      | true => exact absurd (List.isEmpty_iff.mp he) hm
    · rfl

/-- An invalid root (missing or not a directory). -/
def badRoot : RootInput := ⟨["x"], false, [], none⟩

/-- A valid root with one file. -/
def goodRoot : RootInput := ⟨["mod.4gm"], true, [⟨["a.txt"], []⟩], none⟩

/-- Witness for C8: one invalid root alone yields status 2 and no tables;
adding a valid root yields status 0. -/
theorem c8_witness :
    (main_scan [badRoot]).2 = 2 ∧ (main_scan [badRoot]).1 = [] ∧
    (main_scan [badRoot, goodRoot]).2 = 0 := by
  have h1 := (c8_exit_and_skip [badRoot]).1
    (by intro r hr; rw [List.mem_singleton] at hr; subst hr; rfl)
  have h2 := (c8_exit_and_skip [badRoot, goodRoot]).2
    ⟨goodRoot, by simp, rfl⟩
  exact ⟨h1.1, h1.2, h2.1⟩

/-- Claim C9: for every produced record, `relative_to` of the absolute
path against the resolved root succeeds and returns exactly the stored
relative path, appending that relative path to the root reproduces the
absolute path, and the absolute path stays below the root (the relative
path is nonempty since the walker only yields proper descendants). -/
theorem c9_rel_path_descendant (root : List String) (files : List FSFile)
    (g? : Option GitSnapshot) (h : ∀ f ∈ files, f.relComponents ≠ []) :
    ∀ r ∈ gather_stats root files g?,
      relative_to r.abs_path root = some r.rel_path ∧
      root ++ r.rel_path = r.abs_path ∧ root <+: r.abs_path ∧ r.rel_path ≠ [] := by
  intro r hr
  obtain ⟨f, hf, rfl⟩ := List.mem_map.mp hr
  have hpre : root.isPrefixOf (root ++ f.relComponents) = true :=
    isPrefixOf_append_self root _
  have hrel : relative_to (root ++ f.relComponents) root = some f.relComponents := by
    unfold relative_to
    rw [if_pos hpre, List.drop_left]
  have habs : (mkRecord root g? f).abs_path = root ++ f.relComponents := rfl
  have hrp : (mkRecord root g? f).rel_path = f.relComponents := by
    show (relative_to (root ++ f.relComponents) root).getD [] = f.relComponents
    rw [hrel]
    rfl
  rw [habs, hrp]
  exact ⟨hrel, rfl, ⟨f.relComponents, rfl⟩, h f hf⟩

/-- The file of the C9 witness, nested one directory below the root. -/
def c9File : FSFile := ⟨["src", "a.txt"], []⟩

/-- Witness for C9 at a concrete root and nested file. -/
theorem c9_witness :
    relative_to (mkRecord ["mod.4gm"] none c9File).abs_path ["mod.4gm"] =
      some (mkRecord ["mod.4gm"] none c9File).rel_path ∧
    ["mod.4gm"] ++ (mkRecord ["mod.4gm"] none c9File).rel_path =
      (mkRecord ["mod.4gm"] none c9File).abs_path ∧
    ["mod.4gm"] <+: (mkRecord ["mod.4gm"] none c9File).abs_path ∧
    (mkRecord ["mod.4gm"] none c9File).rel_path ≠ [] :=
  c9_rel_path_descendant ["mod.4gm"] [c9File] none
    (by intro f hf; rw [List.mem_singleton] at hf; subst hf; simp [c9File])
    _ (List.mem_singleton.mpr rfl)

/-- The record of the C10 counterexample: one eligible file `a.txt` whose
single line is a tab, the comment marker and a newline. -/
def c10Record : FileRecord :=
  mkRecord ["root"] none ⟨["a.txt"], "\t#\n".toList⟩

/-- Claim C10 is false as stated: the marker-only line "\t#" (with its
newline) increments the blank counter as claimed, but it also increments
the comment counter, through the trailing-comment rule of source line 122
whose `\W` matches the newline after the marker. -/
theorem c10_counterexample :
    c10Record.num_lines = 1 ∧ c10Record.num_blank_lines = 1 ∧
    c10Record.num_comment_lines = 1 ∧
    blankInc ("\t#\n".toList) = 1 ∧ commentInc ("\t#\n".toList) = 1 := by
  refine ⟨by decide, by decide, by decide, by decide, by decide⟩

/-- Claim C10 amended: a line made of optional whitespace, one or more
comment markers and an optional final newline always increments the blank
counter exactly once; when the marker is at the very start of the line (no
leading whitespace) the comment counter is not incremented.  (With leading
whitespace the independent trailing-comment rule may additionally count
the line as a comment.) -/
theorem c10_amended (w hs e : List Char)
    (hw : ∀ c ∈ w, isWsChar c = true) (hh : hs ≠ [])
    (hhs : ∀ c ∈ hs, c = '#') (he : e = [] ∨ e = ['\n']) :
    blankInc (w ++ hs ++ e) = 1 ∧ (w = [] → commentInc (w ++ hs ++ e) = 0) := by
  obtain ⟨a, t, rfl⟩ : ∃ a t, hs = a :: t := by
    cases hs with
    | nil => exact absurd rfl hh
    | cons a t => exact ⟨a, t, rfl⟩
  have ha : a = '#' := hhs a (List.mem_cons_self _ _)
  subst ha
  have hstrip : stripFinalNewline (w ++ '#' :: t ++ e) = w ++ '#' :: t := by
    rcases he with rfl | rfl
    · rw [List.append_nil]
      unfold stripFinalNewline
      rw [if_neg]
      intro hlast
      rw [List.getLast?_append_of_ne_nil w (by simp)] at hlast
      rw [List.getLast?_eq_getLast_of_ne_nil (List.cons_ne_nil '#' t)] at hlast
      have hmem := List.getLast_mem (List.cons_ne_nil '#' t)
      rw [Option.some.inj hlast] at hmem
      have := hhs '\n' hmem
      exact absurd this (by decide)
    · rw [show w ++ '#' :: t ++ ['\n'] = (w ++ '#' :: t) ++ ['\n'] from rfl]
      unfold stripFinalNewline
      rw [List.getLast?_concat, if_pos rfl, List.dropLast_concat]
  have hdrop : (w ++ '#' :: t).dropWhile isWsChar = '#' :: t := by
    rw [dropWhile_append_all hw, List.dropWhile_cons, if_neg (by decide)]
  have h1 : matchLeadingHash (w ++ '#' :: t ++ e) = true := by
    unfold matchLeadingHash
    rw [List.append_assoc, dropWhile_append_all hw]
    rcases he with rfl | rfl
    · rw [List.append_nil, List.dropWhile_cons, if_neg (by decide)]
      rfl
    · rw [List.cons_append, List.dropWhile_cons, if_neg (by decide)]
      rfl
  have hboil : isBoilerplate (w ++ '#' :: t ++ e) = false := by
    apply isBoilerplate_marker_false
    intro c hc
    rcases List.mem_append.mp hc with hc1 | hc1
    · rcases List.mem_append.mp hc1 with hc2 | hc2
      · exact Or.inl (hw c hc2)
      · exact Or.inr (hhs c hc2)
    · rcases he with rfl | rfl
      · exact absurd hc1 (List.not_mem_nil c)
      · rw [List.mem_singleton] at hc1
        subst hc1
        exact Or.inl rfl
  have hhash : matchHashOnly (w ++ '#' :: t ++ e) = true := by
    unfold matchHashOnly
    rw [hstrip, hdrop]
    simp only [List.isEmpty_cons, Bool.not_false, Bool.true_and]
    rw [List.all_cons]
    refine (Bool.and_eq_true _ _).mpr ⟨by decide, ?_⟩
    exact List.all_eq_true.mpr fun c hc =>
      beq_iff_eq.mpr (hhs c (List.mem_cons_of_mem _ hc))
  refine ⟨?_, ?_⟩
  · rw [blankInc, leadingBlankInc, h1, if_pos rfl, hboil]
    rw [if_neg (by simp), hhash, if_pos rfl]
    rw [matchWordOnly_eq_false_of_leadingHash h1]
    simp
  · intro hwnil
    subst hwnil
    rw [commentInc, leadingCommentInc, h1, if_pos rfl, hboil]
    rw [if_neg (by simp), hhash, if_pos rfl]
    have htc : matchTrailingComment ([] ++ '#' :: t ++ e) = false := by
      unfold matchTrailingComment
      rw [List.nil_append, List.cons_append, List.takeWhile_cons, if_neg (by decide)]
      simp
    rw [htc]
    simp

/-- Witness for C10 amended: the line "##" (marker at line start, no
newline) increments blank once and comment not at all. -/
theorem c10_witness :
    blankInc ([] ++ ['#', '#'] ++ []) = 1 ∧ commentInc ([] ++ ['#', '#'] ++ []) = 0 := by
  have h := c10_amended [] ['#', '#'] []
    (by intro c hc; exact absurd hc (List.not_mem_nil c))
    (by simp)
    (by intro c hc; rcases List.mem_cons.mp hc with rfl | hc2; · rfl
        · rw [List.mem_singleton] at hc2; exact hc2)
    (Or.inl rfl)
  exact ⟨h.1, h.2 rfl⟩

end AppAudit
